import Mathlib

/-!
Verification of the telegram-go repository's markup transcoder and action
compiler.  Go strings are modelled as `List Char` wherever the code iterates
over runes (`format.go` converts to `[]rune` before scanning); plain
identifier-like strings (method names, map keys, ids) are modelled as Lean
`String`.  Loops become structural recursions; where a Go loop advances a
cursor non-uniformly the recursion carries an explicit fuel argument that the
wrapper instantiates with the input length (always sufficient, since every
iteration advances the cursor by at least one).
-/

/-- The backtick character (code point 96), written numerically. -/
def backquote : Char := Char.ofNat 96

/-- The opening curly brace character (code point 123). -/
def lcurly : Char := Char.ofNat 123

/-- The closing curly brace character (code point 125). -/
def rcurly : Char := Char.ofNat 125

/-- The 18 characters listed in `EscapeMarkdownV2` (format.go line 18), in
source order: `_ * [ ] ( ) ~ ` > # + - = | { } . !`. -/
def specialChars18 : List Char :=
  ['_', '*', '[', ']', '(', ')', '~', backquote, '>', '#', '+', '-', '=', '|',
   lcurly, rcurly, '.', '!']

/-- One `strings.ReplaceAll(result, char, "\\"+char)` pass for a single
character pattern: every occurrence of `c` becomes backslash-`c`. -/
def replaceAllEsc (l : List Char) (c : Char) : List Char :=
  l.flatMap (fun x => if x = c then ['\\', c] else [x])

/-- `EscapeMarkdownV2` (format.go lines 16-25): sequentially replace each of
the 18 special characters by its backslash-escaped form. -/
def EscapeMarkdownV2 (text : List Char) : List Char :=
  specialChars18.foldl replaceAllEsc text

/-- The five characters escaped inside formatting spans
(format.go line 406, in source order): backslash, backtick, `)`, `(`, `>`. -/
def specialInside5 : List Char := ['\\', backquote, ')', '(', '>']

/-- `escapeInsideFormat` (format.go lines 403-412). -/
def escapeInsideFormat (text : List Char) : List Char :=
  specialInside5.foldl replaceAllEsc text

/-- `isMarkdownV2Special` (format.go lines 415-421): the 18 characters of
`EscapeMarkdownV2` plus the backslash. -/
def isMarkdownV2Special (r : Char) : Bool :=
  (specialChars18 ++ ['\\']).contains r

/-- Go slice `runes[a:b]` on a `List Char`. -/
def extract (s : List Char) (a b : Nat) : List Char :=
  (s.drop a).take (b - a)

/-- `findClosingCodeBlock` (format.go lines 321-328), fuelled.  Scans from
`i` while `i+2 < len` for a triple backtick. -/
def findClosingCodeBlock (s : List Char) : Nat → Nat → Option Nat
  | 0, _ => none
  | fuel + 1, i =>
    if i + 2 < s.length then
      if s.get? i = some backquote ∧ s.get? (i+1) = some backquote ∧
          s.get? (i+2) = some backquote then some i
      else findClosingCodeBlock s fuel (i+1)
    else none

/-- Wrapper supplying sufficient fuel. -/
def findClosingCodeBlockW (s : List Char) (start : Nat) : Option Nat :=
  findClosingCodeBlock s s.length start

/-- `findClosingChar` (format.go lines 331-342), fuelled: scan for `ch`,
skipping the character after a backslash. -/
def findClosingChar (s : List Char) : Nat → Nat → Char → Option Nat
  | 0, _, _ => none
  | fuel + 1, i, ch =>
    if i < s.length then
      match s.get? i with
      | some c =>
        if c = ch then some i
        else if c = '\\' ∧ i + 1 < s.length then findClosingChar s fuel (i+2) ch
        else findClosingChar s fuel (i+1) ch
      | none => none
    else none

/-- Wrapper supplying sufficient fuel. -/
def findClosingCharW (s : List Char) (start : Nat) (ch : Char) : Option Nat :=
  findClosingChar s s.length start ch

/-- `findClosingDouble` (format.go lines 345-356), fuelled: scan for a doubled
`ch` while `i+1 < len`, skipping the character after a backslash. -/
def findClosingDouble (s : List Char) : Nat → Nat → Char → Option Nat
  | 0, _, _ => none
  | fuel + 1, i, ch =>
    if i + 1 < s.length then
      if s.get? i = some ch ∧ s.get? (i+1) = some ch then some i
      else if s.get? i = some '\\' then findClosingDouble s fuel (i+2) ch
      else findClosingDouble s fuel (i+1) ch
    else none

/-- Wrapper supplying sufficient fuel. -/
def findClosingDoubleW (s : List Char) (start : Nat) (ch : Char) : Option Nat :=
  findClosingDouble s s.length start ch

/-- The parenthesis scan of `parseLinkMarkdown` (format.go lines 381-396):
depth counter over parentheses, skipping the character after a backslash.
Returns the index where the depth returns to zero. -/
def findLinkParen (s : List Char) : Nat → Nat → Nat → Option Nat
  | 0, _, _ => none
  | fuel + 1, i, depth =>
    if i < s.length then
      match s.get? i with
      | some c =>
        if c = '(' then findLinkParen s fuel (i+1) (depth+1)
        else if c = ')' then
          if depth = 1 then some i else findLinkParen s fuel (i+1) (depth-1)
        else if c = '\\' ∧ i + 1 < s.length then findLinkParen s fuel (i+2) depth
        else findLinkParen s fuel (i+1) depth
      | none => none
    else none

/-- `parseLinkMarkdown` (format.go lines 359-399).  The bracket scan of lines
365-374 is character-for-character the loop of `findClosingChar` specialised
to `]`, so it is expressed through `findClosingCharW`. -/
def parseLinkMarkdown (s : List Char) (start : Nat) : Option Nat :=
  if s.get? start = some '[' then
    match findClosingCharW s (start+1) ']' with
    | some bracketEnd =>
      if bracketEnd + 1 ≥ s.length ∨ s.get? (bracketEnd+1) ≠ some '(' then none
      else findLinkParen s s.length (bracketEnd+2) 1
    | none => none
  else none

/-- The main scanning loop of `FormatMarkdownV2` (format.go lines 212-315),
fuelled.  At cursor `i` the delimiter patterns are tested in source order
(code block, inline code, spoiler, underline, bold, italic, strikethrough,
link); a failed guard or failed closer search falls through to the next
check, and an unmatched position escapes the character when it is special. -/
def formatScan (s : List Char) : Nat → Nat → List Char
  | 0, _ => []
  | fuel + 1, i =>
    if i < s.length then
      let cb : Option Nat :=
        if i + 2 < s.length ∧ s.get? i = some backquote ∧
            s.get? (i+1) = some backquote ∧ s.get? (i+2) = some backquote then
          findClosingCodeBlockW s (i+3)
        else none
      match cb with
      | some e => extract s i (e+3) ++ formatScan s fuel (e+3)
      | none =>
        let ic : Option Nat :=
          if s.get? i = some backquote then findClosingCharW s (i+1) backquote
          else none
        match ic with
        | some e => extract s i (e+1) ++ formatScan s fuel (e+1)
        | none =>
          let sp : Option Nat :=
            if i + 1 < s.length ∧ s.get? i = some '|' ∧ s.get? (i+1) = some '|' then
              findClosingDoubleW s (i+2) '|'
            else none
          match sp with
          | some e =>
            '|' :: '|' :: (escapeInsideFormat (extract s (i+2) e) ++
              '|' :: '|' :: formatScan s fuel (e+2))
          | none =>
            let ul : Option Nat :=
              if i + 1 < s.length ∧ s.get? i = some '_' ∧ s.get? (i+1) = some '_' then
                findClosingDoubleW s (i+2) '_'
              else none
            match ul with
            | some e =>
              '_' :: '_' :: (escapeInsideFormat (extract s (i+2) e) ++
                '_' :: '_' :: formatScan s fuel (e+2))
            | none =>
              let bd : Option Nat :=
                if s.get? i = some '*' then findClosingCharW s (i+1) '*'
                else none
              match bd with
              | some e =>
                '*' :: (escapeInsideFormat (extract s (i+1) e) ++
                  '*' :: formatScan s fuel (e+1))
              | none =>
                let it : Option Nat :=
                  if s.get? i = some '_' ∧
                      (i + 1 ≥ s.length ∨ s.get? (i+1) ≠ some '_') then
                    match findClosingCharW s (i+1) '_' with
                    | some e =>
                      if e + 1 ≥ s.length ∨ s.get? (e+1) ≠ some '_' then some e
                      else none
                    | none => none
                  else none
                match it with
                | some e =>
                  '_' :: (escapeInsideFormat (extract s (i+1) e) ++
                    '_' :: formatScan s fuel (e+1))
                | none =>
                  let st : Option Nat :=
                    if s.get? i = some '~' then findClosingCharW s (i+1) '~'
                    else none
                  match st with
                  | some e =>
                    '~' :: (escapeInsideFormat (extract s (i+1) e) ++
                      '~' :: formatScan s fuel (e+1))
                  | none =>
                    let lk : Option Nat :=
                      if s.get? i = some '[' then parseLinkMarkdown s i
                      else none
                    match lk with
                    | some e => extract s i (e+1) ++ formatScan s fuel (e+1)
                    | none =>
                      match s.get? i with
                      | some c =>
                        (if isMarkdownV2Special c then ['\\', c] else [c]) ++
                          formatScan s fuel (i+1)
                      | none => []
    else []

/-- `FormatMarkdownV2` (format.go lines 203-318). -/
def FormatMarkdownV2 (text : List Char) : List Char :=
  if text = [] then [] else formatScan text text.length 0

/-- `StripMarkdown`-style sanity examples for the scan (not part of a claim). -/
example : FormatMarkdownV2 ['h', 'i', '!'] = ['h', 'i', '\\', '!'] := by decide

example : FormatMarkdownV2 ['*', 'a', '.', '*'] = ['*', 'a', '.', '*'] := by decide

example : FormatMarkdownV2 ['*', 'a', '.'] = ['\\', '*', 'a', '\\', '.'] := by decide

example : EscapeMarkdownV2 ['a', '.'] = ['a', '\\', '.'] := by decide

example : escapeInsideFormat ['a', '.', ')'] = ['a', '.', '\\', ')'] := by decide

/-! ### Characterisation of the escape primitives as per-character maps -/

/-- Per-character action of `EscapeMarkdownV2`. -/
def escChar18 (c : Char) : List Char :=
  if c ∈ specialChars18 then ['\\', c] else [c]

/-- Per-character action of `escapeInsideFormat`. -/
def escChar5 (c : Char) : List Char :=
  if c ∈ specialInside5 then ['\\', c] else [c]

/-- Per-character action of the outside-span escaping of `FormatMarkdownV2`
(the 18 characters plus the backslash, line 417). -/
def escChar19 (c : Char) : List Char :=
  if isMarkdownV2Special c then ['\\', c] else [c]

lemma replaceAllEsc_append (a b : List Char) (c : Char) :
    replaceAllEsc (a ++ b) c = replaceAllEsc a c ++ replaceAllEsc b c := by
  simp [replaceAllEsc]

lemma foldlRepl_append (cs : List Char) :
    ∀ a b : List Char,
      cs.foldl replaceAllEsc (a ++ b) =
        cs.foldl replaceAllEsc a ++ cs.foldl replaceAllEsc b := by
  induction cs with
  | nil => intro a b; rfl
  | cons c cs ih =>
    intro a b
    simp only [List.foldl_cons, replaceAllEsc_append]
    exact ih _ _

lemma foldlRepl_nil (cs : List Char) : cs.foldl replaceAllEsc [] = [] := by
  induction cs with
  | nil => rfl
  | cons c cs ih => simpa [replaceAllEsc] using ih

lemma foldlRepl_single_notMem (x : Char) (cs : List Char) (h : x ∉ cs) :
    cs.foldl replaceAllEsc [x] = [x] := by
  induction cs with
  | nil => rfl
  | cons c cs ih =>
    have hxc : x ≠ c := fun hx => h (hx ▸ List.mem_cons_self c cs)
    have h' : x ∉ cs := fun hx => h (List.mem_cons_of_mem _ hx)
    simpa [replaceAllEsc, hxc] using ih h'

lemma escapeMarkdownV2_single (x : Char) : EscapeMarkdownV2 [x] = escChar18 x := by
  by_cases h : x ∈ specialChars18
  · simp only [specialChars18, backquote, lcurly, rcurly, List.mem_cons,
      List.not_mem_nil, or_false] at h
    rcases h with rfl | rfl | rfl | rfl | rfl | rfl | rfl | rfl | rfl | rfl |
      rfl | rfl | rfl | rfl | rfl | rfl | rfl | rfl <;> decide
  · rw [EscapeMarkdownV2, foldlRepl_single_notMem x _ h, escChar18, if_neg h]

lemma escapeInsideFormat_single (x : Char) :
    escapeInsideFormat [x] = escChar5 x := by
  by_cases h : x ∈ specialInside5
  · simp only [specialInside5, backquote, List.mem_cons,
      List.not_mem_nil, or_false] at h
    rcases h with rfl | rfl | rfl | rfl | rfl <;> decide
  · rw [escapeInsideFormat, foldlRepl_single_notMem x _ h, escChar5, if_neg h]

/-- `EscapeMarkdownV2` acts independently on each character. -/
lemma escapeMarkdownV2_flatMap (l : List Char) :
    EscapeMarkdownV2 l = l.flatMap escChar18 := by
  induction l with
  | nil => simpa [EscapeMarkdownV2] using foldlRepl_nil specialChars18
  | cons x xs ih =>
    have : EscapeMarkdownV2 (x :: xs) =
        EscapeMarkdownV2 [x] ++ EscapeMarkdownV2 xs := by
      have := foldlRepl_append specialChars18 [x] xs
      simpa [EscapeMarkdownV2] using this
    rw [this, escapeMarkdownV2_single, ih, List.flatMap_cons]

/-- `escapeInsideFormat` acts independently on each character. -/
lemma escapeInsideFormat_flatMap (l : List Char) :
    escapeInsideFormat l = l.flatMap escChar5 := by
  induction l with
  | nil => simpa [escapeInsideFormat] using foldlRepl_nil specialInside5
  | cons x xs ih =>
    have : escapeInsideFormat (x :: xs) =
        escapeInsideFormat [x] ++ escapeInsideFormat xs := by
      have := foldlRepl_append specialInside5 [x] xs
      simpa [escapeInsideFormat] using this
    rw [this, escapeInsideFormat_single, ih, List.flatMap_cons]

lemma length_le_flatMap_escChar18 (l : List Char) :
    l.length ≤ (l.flatMap escChar18).length := by
  induction l with
  | nil => simp
  | cons x xs ih =>
    have hx : 1 ≤ (escChar18 x).length := by
      by_cases h : x ∈ specialChars18 <;> simp [escChar18, h]
    simp only [List.flatMap_cons, List.length_append, List.length_cons]
    omega

lemma length_lt_flatMap_escChar18 (l : List Char)
    (h : ∃ c ∈ l, c ∈ specialChars18) :
    l.length < (l.flatMap escChar18).length := by
  induction l with
  | nil => simp at h
  | cons x xs ih =>
    obtain ⟨c, hc, hcs⟩ := h
    simp only [List.flatMap_cons, List.length_append, List.length_cons]
    rcases List.mem_cons.mp hc with rfl | hmem
    · have : (escChar18 c).length = 2 := by simp [escChar18, hcs]
      have := length_le_flatMap_escChar18 xs
      omega
    · have hx : 1 ≤ (escChar18 x).length := by
        by_cases h : x ∈ specialChars18 <;> simp [escChar18, h]
      have := ih ⟨c, hmem, hcs⟩
      omega

/-! ### The scan on delimiter-free text -/

/-- The six characters that can open a recognised span in the scan of
`FormatMarkdownV2`: backtick, pipe, underscore, asterisk, tilde, bracket. -/
def mdDelims : List Char := [backquote, '|', '_', '*', '~', '[']

lemma formatScan_step (s : List Char) (fuel i : Nat) (c : Char)
    (hc : s.get? i = some c) (hdelim : c ∉ mdDelims) :
    formatScan s (fuel + 1) i =
      (if isMarkdownV2Special c then ['\\', c] else [c]) ++
        formatScan s fuel (i + 1) := by
  have hi : i < s.length := List.get?_eq_some.mp hc |>.1
  simp only [mdDelims, List.mem_cons, List.not_mem_nil, or_false, not_or] at hdelim
  obtain ⟨h1, h2, h3, h4, h5, h6⟩ := hdelim
  simp only [formatScan, if_pos hi, hc, Option.some.injEq]
  rw [if_neg (by rintro ⟨-, h, -⟩; exact h1 h),
    if_neg (by intro h; exact h1 h),
    if_neg (by rintro ⟨-, h, -⟩; exact h2 h),
    if_neg (by rintro ⟨-, h, -⟩; exact h3 h),
    if_neg (by intro h; exact h4 h),
    if_neg (by rintro ⟨h, -⟩; exact h3 h),
    if_neg (by intro h; exact h5 h),
    if_neg (by intro h; exact h6 h)]

lemma formatScan_out (s : List Char) (fuel i : Nat) (h : s.length ≤ i) :
    formatScan s fuel i = [] := by
  cases fuel with
  | zero => rfl
  | succ fuel => simp [formatScan, Nat.not_lt.mpr h]

lemma formatScan_noDelim (s : List Char) (hs : ∀ c ∈ s, c ∉ mdDelims) :
    ∀ fuel i, s.length ≤ fuel + i →
      formatScan s fuel i = (s.drop i).flatMap escChar19 := by
  intro fuel
  induction fuel with
  | zero =>
    intro i hle
    rw [formatScan_out s 0 i (by omega), List.drop_eq_nil_of_le (by omega)]
    rfl
  | succ fuel ih =>
    intro i hle
    by_cases hi : i < s.length
    · have hc : s.get? i = some (s.get ⟨i, hi⟩) := List.get?_eq_get hi
      have hmem : s.get ⟨i, hi⟩ ∈ s := s.get_mem _ _
      rw [formatScan_step s fuel i _ hc (hs _ hmem),
        List.drop_eq_get_cons hi, List.flatMap_cons, ih (i+1) (by omega)]
      rfl
    · rw [formatScan_out s _ i (by omega), List.drop_eq_nil_of_le (by omega)]
      rfl

/-- C1 (corrected): on delimiter-free input the transcoder escapes the 18
reserved characters AND the backslash — 19 characters in all — each with a
single backslash, leaving every other character unaltered.  The original
claim is false because `isMarkdownV2Special` (format.go line 417) also
treats the backslash as special. -/
theorem c1_noDelim_escapes_19 (s : List Char) (hs : ∀ c ∈ s, c ∉ mdDelims) :
    FormatMarkdownV2 s = s.flatMap escChar19 := by
  rcases eq_or_ne s [] with rfl | hne
  · rfl
  · rw [FormatMarkdownV2, if_neg hne]
    simpa using formatScan_noDelim s hs s.length 0 (by omega)

/-- Witness for C1: on `a.\` the dot and the backslash are both escaped,
while `a` passes through. -/
theorem c1_witness :
    FormatMarkdownV2 ['a', '.', '\\'] = ['a', '.', '\\'].flatMap escChar19 :=
  c1_noDelim_escapes_19 ['a', '.', '\\'] (by decide)

/-- Counterexample to C1 as stated: the input consisting of a single
backslash contains no recognised delimiter, yet `FormatMarkdownV2` escapes
the backslash (producing two backslashes), whereas the claim demands that
the backslash be left unaltered (i.e. that the result agree with the plain
18-character escape `EscapeMarkdownV2`). -/
theorem c1_counterexample :
    (∀ c ∈ ['\\'], c ∉ mdDelims) ∧
      EscapeMarkdownV2 ['\\'] = ['\\'] ∧
      FormatMarkdownV2 ['\\'] = ['\\', '\\'] ∧
      FormatMarkdownV2 ['\\'] ≠ EscapeMarkdownV2 ['\\'] := by decide

/-! ### C8: the plain escape primitive is not idempotent -/

lemma escChar18_comp (c : Char) :
    (escChar18 c).flatMap escChar18 =
      if c ∈ specialChars18 then ['\\', '\\', c] else [c] := by
  by_cases h : c ∈ specialChars18
  · have hbs : ('\\' : Char) ∉ specialChars18 := by decide
    simp [escChar18, h, hbs]
  · simp [escChar18, h]

lemma escapeMarkdownV2_twice (t : List Char) :
    EscapeMarkdownV2 (EscapeMarkdownV2 t) =
      t.flatMap (fun c => if c ∈ specialChars18 then ['\\', '\\', c] else [c]) := by
  rw [escapeMarkdownV2_flatMap, escapeMarkdownV2_flatMap, List.flatMap_assoc]
  exact List.flatMap_congr fun c _ => escChar18_comp c

/-- C8 (confirmed): applying `EscapeMarkdownV2` twice to text containing a
reserved character puts a doubled backslash before every reserved character,
so the primitive is not idempotent. -/
theorem c8_escape_not_idempotent (t : List Char)
    (h : ∃ c ∈ t, c ∈ specialChars18) :
    EscapeMarkdownV2 (EscapeMarkdownV2 t) =
      t.flatMap (fun c => if c ∈ specialChars18 then ['\\', '\\', c] else [c]) ∧
    EscapeMarkdownV2 (EscapeMarkdownV2 t) ≠ EscapeMarkdownV2 t := by
  refine ⟨escapeMarkdownV2_twice t, ?_⟩
  obtain ⟨c, hct, hcs⟩ := h
  have hmem : c ∈ EscapeMarkdownV2 t := by
    rw [escapeMarkdownV2_flatMap]
    exact List.mem_flatMap.mpr ⟨c, hct, by simp [escChar18, hcs]⟩
  have hlt : (EscapeMarkdownV2 t).length <
      (EscapeMarkdownV2 (EscapeMarkdownV2 t)).length := by
    rw [escapeMarkdownV2_flatMap (EscapeMarkdownV2 t)]
    exact length_lt_flatMap_escChar18 _ ⟨c, hmem, hcs⟩
  intro heq
  rw [heq] at hlt
  exact lt_irrefl _ hlt

/-- Witness for C8 at the single dot: double escaping yields `\\.`. -/
theorem c8_witness :
    EscapeMarkdownV2 (EscapeMarkdownV2 ['.']) = ['\\', '\\', '.'] ∧
      EscapeMarkdownV2 (EscapeMarkdownV2 ['.']) ≠ EscapeMarkdownV2 ['.'] :=
  ⟨by decide, (c8_escape_not_idempotent ['.'] (by decide)).2⟩

/-! ### C2: matched bold spans -/

lemma findClosingChar_found (s : List Char) (ch : Char) (m : Nat)
    (hm : s.get? m = some ch) :
    ∀ fuel i, i ≤ m → m - i < fuel →
      (∀ j, i ≤ j → j < m → ∀ c, s.get? j = some c → c ≠ ch ∧ c ≠ '\\') →
      findClosingChar s fuel i ch = some m := by
  have hmlen : m < s.length := List.get?_eq_some.mp hm |>.1
  intro fuel
  induction fuel with
  | zero => intro i _ h; omega
  | succ fuel ih =>
    intro i hi hfuel hmid
    have hilen : i < s.length := by omega
    rcases Nat.eq_or_lt_of_le hi with rfl | hlt
    · have hgi : s.get ⟨i, hilen⟩ = ch := by
        have hb : s.get? i = some (s.get ⟨i, hilen⟩) := List.get?_eq_get hilen
        rw [hm] at hb
        exact (Option.some.inj hb).symm
      simp [findClosingChar, hilen, hm]
      intro hne
      exact absurd (by simpa using hgi) hne
    · have hc : s.get? i = some (s.get ⟨i, hilen⟩) := List.get?_eq_get hilen
      obtain ⟨hne, hnb⟩ := hmid i le_rfl hlt _ hc
      simp only [findClosingChar, if_pos hilen, hc]
      rw [if_neg hne, if_neg (by rintro ⟨h, -⟩; exact hnb h)]
      exact ih (i+1) (by omega) (by omega)
        (fun j hj hjm c h => hmid j (by omega) hjm c h)

lemma formatScan_bold_step (s : List Char) (fuel i e : Nat)
    (hi : i < s.length) (hc : s.get? i = some '*')
    (hfind : findClosingCharW s (i+1) '*' = some e) :
    formatScan s (fuel + 1) i =
      '*' :: (escapeInsideFormat (extract s (i+1) e) ++
        '*' :: formatScan s fuel (e+1)) := by
  simp only [formatScan, if_pos hi, hc, Option.some.injEq]
  rw [if_neg (by rintro ⟨-, h, -⟩; exact absurd h (by decide)),
    if_neg (by intro h; exact absurd h (by decide)),
    if_neg (by rintro ⟨-, h, -⟩; exact absurd h (by decide)),
    if_neg (by rintro ⟨-, h, -⟩; exact absurd h (by decide)),
    if_pos trivial, hfind]

/-- C2 (confirmed): whenever the scan reaches a cursor position `i` holding
a `*` whose closer search succeeds at `e` — i.e. a matched bold span
`*content*` anywhere in the input, with `content = extract s (i+1) e`
allowed to contain backslash-escaped characters — the output emits the two
`*` delimiters verbatim around `escapeInsideFormat content`, and
`escapeInsideFormat` acts per character: it escapes exactly the five
characters backslash, backtick, `)`, `(`, `>` and leaves every other
character (in particular the remaining 18-set characters) unaltered.
Since `FormatMarkdownV2 s` is `formatScan s s.length 0`, this covers every
matched bold span the transcoder processes, in any surrounding context. -/
theorem c2_bold_span (s : List Char) (fuel i e : Nat)
    (hi : i < s.length) (hc : s.get? i = some '*')
    (hfind : findClosingCharW s (i+1) '*' = some e) :
    formatScan s (fuel + 1) i =
      '*' :: (escapeInsideFormat (extract s (i+1) e) ++
        '*' :: formatScan s fuel (e+1)) ∧
    escapeInsideFormat (extract s (i+1) e) =
      (extract s (i+1) e).flatMap escChar5 :=
  ⟨formatScan_bold_step s fuel i e hi hc hfind,
   escapeInsideFormat_flatMap (extract s (i+1) e)⟩

/-- Witness for C2 at the span `*a\b*` (cursor 0, closer at 4, fuel as
used by `FormatMarkdownV2`): the delimiters survive verbatim, the
backslash inside the span is escaped, `a` and `b` are not, and the
end-to-end transcoding yields `*a\\b*`. -/
theorem c2_witness :
    (formatScan ['*', 'a', '\\', 'b', '*'] (4 + 1) 0 =
       '*' :: (escapeInsideFormat (extract ['*', 'a', '\\', 'b', '*'] 1 4) ++
         '*' :: formatScan ['*', 'a', '\\', 'b', '*'] 4 5) ∧
     escapeInsideFormat (extract ['*', 'a', '\\', 'b', '*'] 1 4) =
       (extract ['*', 'a', '\\', 'b', '*'] 1 4).flatMap escChar5) ∧
    FormatMarkdownV2 ['*', 'a', '\\', 'b', '*'] =
      ['*', 'a', '\\', '\\', 'b', '*'] :=
  ⟨c2_bold_span ['*', 'a', '\\', 'b', '*'] 4 0 4 (by decide) (by decide)
     (by decide), by decide⟩

/-! ### C9: callback identifier hash input (utils.go) -/

/-- The 8-byte value fed to SHA-1 by `GenerateCallbackHash` (utils.go lines
11-18): `uint64(time.Now().UnixNano()) ^ uint64(index)`, i.e. the clock
reading XOR the positional index, both reduced to 64 bits. -/
def hashInput (clock idx : Nat) : Nat := (clock % 2 ^ 64) ^^^ (idx % 2 ^ 64)

lemma nat_xor_left_cancel {a b c : Nat} (h : a ^^^ b = a ^^^ c) : b = c := by
  have := congrArg (fun x => a ^^^ x) h
  simpa [← Nat.xor_assoc, Nat.xor_self, Nat.zero_xor] using this

/-- C9 (corrected): if the two mint calls agree on one of the two
components (clock reading or index) and differ in the other, the 8-byte
hash inputs differ.  The original claim — that differing in either
component suffices — fails when both components change (see the
counterexample). -/
theorem c9_hash_inputs_differ (t t1 t2 i i1 i2 : Nat) :
    (i1 < 2 ^ 64 → i2 < 2 ^ 64 → i1 ≠ i2 → hashInput t i1 ≠ hashInput t i2) ∧
    (t1 < 2 ^ 64 → t2 < 2 ^ 64 → t1 ≠ t2 → hashInput t1 i ≠ hashInput t2 i) := by
  constructor
  · intro h1 h2 hne heq
    rw [hashInput, hashInput, Nat.mod_eq_of_lt h1, Nat.mod_eq_of_lt h2] at heq
    exact hne (nat_xor_left_cancel heq)
  · intro h1 h2 hne heq
    rw [hashInput, hashInput, Nat.mod_eq_of_lt h1, Nat.mod_eq_of_lt h2,
      Nat.xor_comm t1 _, Nat.xor_comm t2 _] at heq
    exact hne (nat_xor_left_cancel heq)

/-- Witness for C9: same clock different index, and same index different
clock, each give distinct hash inputs. -/
theorem c9_witness :
    hashInput 5 0 ≠ hashInput 5 1 ∧ hashInput 0 7 ≠ hashInput 1 7 :=
  ⟨(c9_hash_inputs_differ 5 0 0 0 0 1).1 (by decide) (by decide) (by decide),
   (c9_hash_inputs_differ 0 0 1 7 0 0).2 (by decide) (by decide) (by decide)⟩

/-- Counterexample to C9 as stated: the calls `(clock 0, index 1)` and
`(clock 1, index 0)` differ in the clock reading (and in the index), yet
the two 8-byte hash inputs coincide. -/
theorem c9_counterexample :
    (0 : Nat) ≠ 1 ∧ hashInput 0 1 = hashInput 1 0 := by decide

/-! ### Button layout: the row-building loop -/

/-- The row-building loop shared by `buildInlineKeyboard` (part_001 lines
284-294) and `buildVirtualKeyboard` (part_001 lines 363-370): starting at
index 0 and advancing by `colNum`, each iteration collects the next (up to)
`colNum` elements as one row.  Fuelled by the list length; the Go loop does
not terminate (or panics at the `make`) when `colNum ≤ 0`, so callers in the
model guard positivity explicitly. -/
def chunkGo {α : Type} (c : Nat) : Nat → List α → List (List α)
  | _, [] => []
  | 0, _ :: _ => []
  | fuel + 1, x :: xs => (x :: xs.take (c - 1)) :: chunkGo c fuel (xs.drop (c - 1))

/-- Row layout of a label list with column count `c`. -/
def chunkList {α : Type} (c : Nat) (l : List α) : List (List α) :=
  chunkGo c l.length l

lemma chunkGo_fuel {α : Type} (c : Nat) :
    ∀ (f₁ f₂ : Nat) (l : List α), l.length ≤ f₁ → l.length ≤ f₂ →
      chunkGo c f₁ l = chunkGo c f₂ l := by
  intro f₁
  induction f₁ with
  | zero =>
    intro f₂ l h1 _
    have : l = [] := List.eq_nil_of_length_eq_zero (by omega)
    subst this
    cases f₂ <;> rfl
  | succ f ih =>
    intro f₂ l h1 h2
    cases l with
    | nil => cases f₂ <;> rfl
    | cons x xs =>
      cases f₂ with
      | zero => simp at h2
      | succ f₂' =>
        simp only [chunkGo, List.cons.injEq, true_and]
        exact ih f₂' (xs.drop (c-1)) (by simp at h1 ⊢; omega)
          (by simp at h2 ⊢; omega)

lemma chunkList_cons {α : Type} (c : Nat) (x : α) (xs : List α) :
    chunkList c (x :: xs) =
      (x :: xs.take (c - 1)) :: chunkList c (xs.drop (c - 1)) := by
  show chunkGo c (xs.length + 1) (x :: xs) = _
  simp only [chunkGo, List.cons.injEq, true_and]
  exact chunkGo_fuel c xs.length (xs.drop (c-1)).length (xs.drop (c-1))
    (by simp) le_rfl

lemma chunkList_eq_nil_iff {α : Type} (c : Nat) (l : List α) :
    chunkList c l = [] ↔ l = [] := by
  cases l with
  | nil => simp [chunkList, chunkGo]
  | cons x xs => rw [chunkList_cons]; simp

lemma chunk_join {α : Type} (c : Nat) :
    ∀ (n : Nat) (l : List α), l.length ≤ n → (chunkList c l).flatten = l := by
  intro n
  induction n with
  | zero =>
    intro l h
    have : l = [] := List.eq_nil_of_length_eq_zero (by omega)
    subst this
    rfl
  | succ n ih =>
    intro l h
    cases l with
    | nil => rfl
    | cons x xs =>
      rw [chunkList_cons, List.flatten_cons,
        ih (xs.drop (c-1)) (by simp at h ⊢; omega)]
      simp [List.take_append_drop]

lemma chunk_length {α : Type} (c : Nat) (hc : 1 ≤ c) :
    ∀ (n : Nat) (l : List α), l.length ≤ n →
      (chunkList c l).length = (l.length + c - 1) / c := by
  intro n
  induction n with
  | zero =>
    intro l h
    have : l = [] := List.eq_nil_of_length_eq_zero (by omega)
    subst this
    simp [chunkList, chunkGo, Nat.div_eq_of_lt (by omega : c - 1 < c)]
  | succ n ih =>
    intro l h
    cases l with
    | nil => simp [chunkList, chunkGo, Nat.div_eq_of_lt (by omega : c - 1 < c)]
    | cons x xs =>
      rw [chunkList_cons, List.length_cons,
        ih (xs.drop (c-1)) (by simp at h ⊢; omega)]
      simp only [List.length_drop, List.length_cons]
      rcases le_or_lt (xs.length + 1) c with hle | hlt
      · have h0 : xs.length - (c - 1) = 0 := by omega
        rw [h0]
        have h1 : (0 + c - 1) / c = 0 := Nat.div_eq_of_lt (by omega)
        have hm : xs.length + 1 + c - 1 = xs.length + c := by omega
        have h2 : (xs.length + c) / c = 1 :=
          Nat.div_eq_of_lt_le (by omega) (by omega)
        rw [h1, hm, h2]
      · have h1 : xs.length - (c - 1) + c - 1 = xs.length := by omega
        have h2 : xs.length + 1 + c - 1 = xs.length + c := by omega
        rw [h1, h2, Nat.add_div_right _ (by omega : 0 < c)]

lemma chunk_dropLast {α : Type} (c : Nat) (hc : 1 ≤ c) :
    ∀ (n : Nat) (l : List α), l.length ≤ n →
      ∀ r ∈ (chunkList c l).dropLast, r.length = c := by
  intro n
  induction n with
  | zero =>
    intro l h
    have : l = [] := List.eq_nil_of_length_eq_zero (by omega)
    subst this
    intro r hr
    simp [chunkList, chunkGo] at hr
  | succ n ih =>
    intro l h r hr
    cases l with
    | nil => simp [chunkList, chunkGo] at hr
    | cons x xs =>
      rw [chunkList_cons] at hr
      by_cases hrest : chunkList c (xs.drop (c-1)) = []
      · rw [hrest] at hr
        simp at hr
      · rw [List.dropLast_cons_of_ne_nil hrest] at hr
        rcases List.mem_cons.mp hr with rfl | hmem
        · have hxs : xs.drop (c-1) ≠ [] := by
            intro hnil
            exact hrest ((chunkList_eq_nil_iff c _).mpr hnil)
          have hlen : c - 1 < xs.length := by
            by_contra hcon
            exact hxs (List.drop_eq_nil_of_le (by omega))
          simp [List.length_take]
          omega
        · exact ih (xs.drop (c-1)) (by simp at h ⊢; omega) r hmem

lemma chunk_getLast {α : Type} (c : Nat) (hc : 1 ≤ c) :
    ∀ (n : Nat) (l : List α), l.length ≤ n → l ≠ [] →
      ∃ last, (chunkList c l).getLast? = some last ∧
        last.length = l.length - c * ((chunkList c l).length - 1) ∧
        1 ≤ last.length ∧ last.length ≤ c := by
  intro n
  induction n with
  | zero =>
    intro l h hne
    exact absurd (List.eq_nil_of_length_eq_zero (by omega)) hne
  | succ n ih =>
    intro l h hne
    cases l with
    | nil => exact absurd rfl hne
    | cons x xs =>
      rw [chunkList_cons]
      by_cases hrest : chunkList c (xs.drop (c-1)) = []
      · have hxs : xs.drop (c-1) = [] := (chunkList_eq_nil_iff c _).mp hrest
        have hlen : xs.length ≤ c - 1 := by
          by_contra hcon
          have := List.drop_eq_nil_iff_le.mp hxs
          omega
        refine ⟨x :: xs.take (c-1), ?_, ?_, ?_, ?_⟩
        · rw [hrest]
          rfl
        · rw [hrest]
          simp [List.length_take]
          omega
        · simp
        · simp [List.length_take]
          omega
      · obtain ⟨last, hl1, hl2, hl3, hl4⟩ :=
          ih (xs.drop (c-1)) (by simp at h ⊢; omega)
            (fun hnil => hrest ((chunkList_eq_nil_iff c _).mpr hnil))
        refine ⟨last, ?_, ?_, hl3, hl4⟩
        · cases hll : chunkList c (xs.drop (c-1)) with
          | nil => exact absurd hll hrest
          | cons y ys =>
            rw [hll] at hl1
            rw [List.getLast?_cons_cons]
            exact hl1
        · obtain ⟨k, hk⟩ : ∃ k, (chunkList c (xs.drop (c-1))).length = k + 1 :=
            ⟨(chunkList c (xs.drop (c-1))).length - 1, by
              have := List.length_pos.mpr hrest
              omega⟩
          have hRlen : ((x :: List.take (c-1) xs) ::
              chunkList c (List.drop (c-1) xs)).length = (k + 1) + 1 := by
            rw [List.length_cons, hk]
          rw [hl2, List.length_drop, hk, hRlen, List.length_cons]
          have e1 : k + 1 - 1 = k := by omega
          have e2 : (k + 1) + 1 - 1 = k + 1 := by omega
          rw [e1, e2, Nat.mul_succ]
          have hxl : c - 1 ≤ xs.length := by
            by_contra hcon
            exact hrest ((chunkList_eq_nil_iff c _).mpr
              (List.drop_eq_nil_of_le (by omega)))
          generalize c * k = d
          omega

/-- C6 (confirmed): for a positive column count `c` the layout is row-major
(concatenating the rows gives back the labels in order), has `ceil(N/c)`
rows, every row except possibly the last has exactly `c` entries, the last
row holds the remaining `N - c*(rows-1)` labels — a number in `[1, c]` —
and the empty label list gives the empty grid. -/
theorem c6_layout {α : Type} (l : List α) (c : Nat) (hc : 1 ≤ c) :
    (chunkList c l).flatten = l ∧
    (chunkList c l).length = (l.length + c - 1) / c ∧
    (∀ r ∈ (chunkList c l).dropLast, r.length = c) ∧
    chunkList c ([] : List α) = [] ∧
    (l ≠ [] → ∃ last, (chunkList c l).getLast? = some last ∧
      last.length = l.length - c * ((chunkList c l).length - 1) ∧
      1 ≤ last.length ∧ last.length ≤ c) :=
  ⟨chunk_join c l.length l le_rfl,
   chunk_length c hc l.length l le_rfl,
   chunk_dropLast c hc l.length l le_rfl,
   rfl,
   fun hne => chunk_getLast c hc l.length l le_rfl hne⟩

/-- Witness for C6 at `N = 7`, `c = 3` (rows of lengths 3, 3, 1). -/
theorem c6_witness :
    (chunkList 3 [0, 1, 2, 3, 4, 5, 6]).flatten = [0, 1, 2, 3, 4, 5, 6] ∧
    (chunkList 3 [0, 1, 2, 3, 4, 5, 6]).length = (7 + 3 - 1) / 3 ∧
    (∀ r ∈ (chunkList 3 [0, 1, 2, 3, 4, 5, 6]).dropLast, r.length = 3) ∧
    chunkList 3 ([] : List Nat) = [] ∧
    ([0, 1, 2, 3, 4, 5, 6] ≠ [] →
      ∃ last, (chunkList 3 [0, 1, 2, 3, 4, 5, 6]).getLast? = some last ∧
        last.length = 7 - 3 * ((chunkList 3 [0, 1, 2, 3, 4, 5, 6]).length - 1) ∧
        1 ≤ last.length ∧ last.length ≤ 3) := by
  have h := c6_layout [0, 1, 2, 3, 4, 5, 6] 3 (by decide)
  simpa using h

/-! ### Action compiler (part_001)

Go's loosely typed `interface{}` values (spices, attachment payloads, map
parameters) are modelled by the `Val` type below; `map[string]interface{}`
becomes an association list with map-assignment (`bagSet`) and lookup
(`bagGet`) semantics.  The clock-seeded `GenerateCallbackHash` is abstracted
by a parameter `mint : Nat → String` giving the token minted for each
positional index during one compile; the callback persistence gateway is
modelled as always succeeding, with its calls (and the other external
effects) recorded in an event trace.  A `none` result marks a Go runtime
panic (nil-pointer dereference, or the non-positive-column `make`/loop). -/

namespace Tg

/-- `InlineKeyboardButton` (part_000 lines 232-236). -/
structure InlineKeyboardButton where
  text : String
  url : String
  callbackData : String
deriving DecidableEq

/-- A Go `interface{}` value as it occurs in this code path. -/
inductive Val where
  | vNull : Val
  | vStr : List Char → Val
  | vInt : Int → Val
  | vBool : Bool → Val
  | vMap : List (String × Val) → Val
  | vArr : List Val → Val
  | vInline : List (List InlineKeyboardButton) → Val
  | vRows : List (List String) → Val

/-- A Go `map[string]interface{}`, e.g. the outbound parameter bag. -/
abbrev Bag := List (String × Val)

/-- Map assignment `m[k] = v`. -/
def bagSet : Bag → String → Val → Bag
  | [], k, v => [(k, v)]
  | (k', v') :: rest, k, v =>
    if k' = k then (k, v) :: rest else (k', v') :: bagSet rest k v

/-- Map lookup `m[k]`. -/
def bagGet : Bag → String → Option Val
  | [], _ => none
  | (k', v) :: rest, k => if k' = k then some v else bagGet rest k

/-- `for k, v := range m { bag[k] = v }` over an association list. -/
def bagSetAll (b : Bag) (entries : List (String × Val)) : Bag :=
  entries.foldl (fun b kv => bagSet b kv.1 kv.2) b

/-- `ActionUser` (part_001 lines 20-23). -/
structure ActionUser where
  tgId : Int
  id : String
deriving DecidableEq

/-- `Attachment` (part_001 lines 40-49); the `interface{}` fields
`Contact`, `Poll`, `Venue` are `Option Val` (`none` = nil). -/
structure Attachment where
  type : String
  url : String
  sticker : String
  dice : String
  contact : Option Val
  poll : Option Val
  venue : Option Val
  gameShortName : String

/-- `Parameters` (part_001 lines 52-55). -/
structure Parameters where
  save : Option Bool
  sendReaction : Option String

/-- `Content` (part_001 lines 26-37).  `Attachment` is a pointer (`none` =
nil); `Actions` is a nil-able slice of raw JSON payloads (modelled as
opaque strings); `ReplyMarkup` a nil-able map; `ColumnNum` a nil-able int;
`text` is the rune sequence handed to the transcoder. -/
structure Content where
  type : String
  stream : String
  text : List Char
  attachment : Option Attachment
  buts : List String
  actions : Option (List String)
  replyMarkup : Option (List (String × Val))
  columnNum : Option Int
  spices : List (String × Val)
  parameters : Parameters

/-- `Action` (part_001 lines 11-17). -/
structure Action where
  activity : String
  project : String
  user : ActionUser
  content : Content
  token : String

/-- `CallbackData` (part_001 lines 66-71). -/
structure CallbackData where
  project : String
  userId : String
  queryData : String
  action : Option String
deriving DecidableEq

/-- `ActionResult` (part_001 lines 58-63), with the raw response omitted
(transport is external) and the error abstracted to present/absent. -/
structure ActionResult where
  success : Bool
  messageId : Int
  error : Option Unit
deriving DecidableEq

/-- One observable call to an external collaborator during
`ExecuteAction`: a single-record callback save, a batch callback save, a
`SendChatAction`, or the final transport `Call` of the chosen method. -/
inductive Event where
  | saveOne : CallbackData → Event
  | saveBatch : List CallbackData → Event
  | chatAction : String → Event
  | apiCall : String → Event
deriving DecidableEq

/-- Whether an event is a batch persistence call. -/
def Event.isBatch : Event → Bool
  | .saveBatch _ => true
  | _ => false

/-- The column-count resolution of `processKeyboards` (part_001 lines
238-241): 3 when `ColumnNum` is nil, otherwise the stored value — with no
guard against zero or negative stored values. -/
def effectiveColNum (columnNum : Option Int) : Int :=
  match columnNum with
  | none => 3
  | some v => v

/-- The callback record built for button `i` by `buildInlineKeyboard`
(part_001 lines 263-272): positionally matched action payload when the
`Actions` slice is non-nil and long enough. -/
def mkCallbackRecord (action : Action) (mint : Nat → String) (i : Nat) :
    CallbackData :=
  { project := action.project
    userId := action.user.id
    queryData := mint i
    action := action.content.actions.bind (fun as => as.get? i) }

/-- `buildInlineKeyboard` (part_001 lines 254-301): mint one token per
label, save one `CallbackData` record per button through
`SaveCallbackData` (single-record saves, in index order), then lay the
buttons out with the row loop and store the inline keyboard under
`reply_markup`.  A non-positive `colNum` makes the Go `make`/loop panic or
diverge, modelled as `none` (the gateway itself never fails in the model). -/
def buildInlineKeyboard (mint : Nat → String) (saverPresent : Bool)
    (action : Action) (bag : Bag) (colNum : Int) :
    Option (Bag × List Event) :=
  let buts := action.content.buts
  let callbackData := (List.range buts.length).map mint
  let events :=
    if saverPresent then
      (List.range buts.length).map
        (fun i => Event.saveOne (mkCallbackRecord action mint i))
    else []
  if colNum ≤ 0 then none
  else
    let buttons := List.zipWith
      (fun b t => InlineKeyboardButton.mk b "" t) buts callbackData
    let keyboard := chunkList colNum.toNat buttons
    some (bagSet bag "reply_markup"
      (Val.vMap [("inline_keyboard", Val.vInline keyboard)]), events)

/-- `buildVirtualKeyboard` (part_001 lines 359-377): the same row loop over
the labels, stored as a reply keyboard with resize/one-time flags. -/
def buildVirtualKeyboard (action : Action) (bag : Bag) (colNum : Int) :
    Option Bag :=
  if colNum ≤ 0 then none
  else
    some (bagSet bag "reply_markup"
      (Val.vMap [("keyboard", Val.vRows (chunkList colNum.toNat action.content.buts)),
                 ("resize_keyboard", Val.vBool true),
                 ("one_time_keyboard", Val.vBool true)]))

/-- The inner loop of `processInlineKeyboard` (part_001 lines 319-345) over
one row: map-typed items get `callback_data := mint index` and a callback
record; other items are skipped without consuming an index. -/
def processRowItems (mint : Nat → String) (action : Action) :
    List Val → Nat → List Val × List CallbackData × Nat
  | [], idx => ([], [], idx)
  | item :: rest, idx =>
    match item with
    | Val.vMap btn =>
      let hash := mint idx
      let btn' := bagSet btn "callback_data" (Val.vStr hash.toList)
      let data : CallbackData :=
        { project := action.project
          userId := action.user.id
          queryData := hash
          action := action.content.actions.bind (fun as => as.get? idx) }
      let (rest', ds, idx') := processRowItems mint action rest (idx + 1)
      (Val.vMap btn' :: rest', data :: ds, idx')
    | _ =>
      let (rest', ds, idx') := processRowItems mint action rest idx
      (item :: rest', ds, idx')

/-- The outer loop of `processInlineKeyboard` (part_001 lines 313-346):
rows that are not arrays are skipped (but kept in place). -/
def processRows (mint : Nat → String) (action : Action) :
    List Val → Nat → List Val × List CallbackData × Nat
  | [], idx => ([], [], idx)
  | row :: rest, idx =>
    match row with
    | Val.vArr items =>
      let (items', ds, idx') := processRowItems mint action items idx
      let (rest', ds', idx'') := processRows mint action rest idx'
      (Val.vArr items' :: rest', ds ++ ds', idx'')
    | _ =>
      let (rest', ds, idx') := processRows mint action rest idx
      (row :: rest', ds, idx')

/-- `processInlineKeyboard` (part_001 lines 304-356): rewrite the
caller-supplied inline keyboard in place with minted `callback_data`
values and persist the collected records in one `SaveCallbackDataBatch`
call (only when the saver is present and at least one record exists). -/
def processInlineKeyboard (mint : Nat → String) (saverPresent : Bool)
    (action : Action) (bag : Bag) (m : List (String × Val)) (kb : Val) :
    Bag × List Event :=
  match kb with
  | Val.vArr rows =>
    let res := processRows mint action rows 0
    let rows' := res.1
    let ds := res.2.1
    let bag' := bagSet bag "reply_markup"
      (Val.vMap (bagSet m "inline_keyboard" (Val.vArr rows')))
    if saverPresent ∧ ds ≠ [] then (bag', [Event.saveBatch ds]) else (bag', [])
  | _ => (bag, [])

/-- `processKeyboards` (part_001 lines 221-251). -/
def processKeyboards (mint : Nat → String) (saverPresent : Bool)
    (action : Action) (bag : Bag) : Option (Bag × List Event) :=
  match action.content.replyMarkup with
  | some m =>
    let bag₁ := bagSet bag "reply_markup" (Val.vMap m)
    match bagGet m "inline_keyboard" with
    | some kb => some (processInlineKeyboard mint saverPresent action bag₁ m kb)
    | none => some (bag₁, [])
  | none =>
    if action.content.buts = [] then some (bag, [])
    else
      let colNum := effectiveColNum action.content.columnNum
      match action.content.type with
      | "inline_keyboard" =>
        buildInlineKeyboard mint saverPresent action bag colNum
      | "virtual_keyboard" =>
        (buildVirtualKeyboard action bag colNum).map (fun b => (b, []))
      | _ => some (bag, [])

/-- The parse-mode application of `ExecuteAction` (part_001 lines 92-97):
`content.Text` is passed through `FormatMarkdownV2` exactly when the
spices bag maps `parse_mode` to the string `MarkdownV2`. -/
def applyParseMode (content : Content) : List Char :=
  match bagGet content.spices "parse_mode" with
  | some (Val.vStr s) =>
    if s = "MarkdownV2".toList then FormatMarkdownV2 content.text
    else content.text
  | _ => content.text

/-- `determineMethod` (part_001 lines 142-218).  `none` models the Go
nil-pointer panic on `action.Content.Attachment` dereference for the
sticker/dice/contact/poll/game/venue cases when the attachment is nil. -/
def determineMethod (action : Action) (bag : Bag) (text : List Char) :
    Option (String × Bag) :=
  match action.content.type with
  | "sticker" =>
    match action.content.attachment with
    | none => none
    | some att =>
      some ("sendSticker", bagSet bag "sticker" (Val.vStr att.sticker.toList))
  | "dice" =>
    match action.content.attachment with
    | none => none
    | some att =>
      some ("sendDice", bagSet bag "emoji" (Val.vStr att.dice.toList))
  | "contact" =>
    match action.content.attachment with
    | none => none
    | some att =>
      let bag' :=
        match att.contact with
        | some (Val.vMap m) =>
          bagSet (bagSet (bagSet (bagSet bag
            "phone_number" ((bagGet m "phone_number").getD Val.vNull))
            "first_name" ((bagGet m "first_name").getD Val.vNull))
            "last_name" ((bagGet m "last_name").getD Val.vNull))
            "vcard" ((bagGet m "vcard").getD Val.vNull)
        | _ => bag
      some ("sendContact", bag')
  | "poll" =>
    match action.content.attachment with
    | none => none
    | some att =>
      let bag' :=
        match att.poll with
        | some (Val.vMap m) =>
          let merged := bagSetAll bag m
          match bagGet merged "explanation" with
          | some (Val.vStr e) =>
            bagSet merged "explanation" (Val.vStr (FormatMarkdownV2 e))
          | _ => merged
        | _ => bag
      some ("sendPoll", bag')
  | "game" =>
    match action.content.attachment with
    | none => none
    | some att =>
      some ("sendGame",
        bagSet bag "game_short_name" (Val.vStr att.gameShortName.toList))
  | "venue" =>
    match action.content.attachment with
    | none => none
    | some att =>
      let bag' :=
        match att.venue with
        | some (Val.vMap m) => bagSetAll bag m
        | _ => bag
      some ("sendVenue", bag')
  | _ =>
    if action.content.type = "text" ∨ action.content.type = "inline_keyboard" ∨
        action.content.type = "virtual_keyboard" ∨ action.content.type = "" then
      match action.content.attachment with
      | none => some ("sendMessage", bagSet bag "text" (Val.vStr text))
      | some att =>
        if att.url = "" then
          some ("sendMessage", bagSet bag "text" (Val.vStr text))
        else
          let bag₁ := bagSet bag "caption" (Val.vStr text)
          match att.type with
          | "photo" =>
            some ("sendPhoto", bagSet bag₁ "photo" (Val.vStr att.url.toList))
          | "document" =>
            some ("sendDocument",
              bagSet bag₁ "document" (Val.vStr att.url.toList))
          | "video" =>
            some ("sendVideo", bagSet bag₁ "video" (Val.vStr att.url.toList))
          | "audio" =>
            some ("sendAudio", bagSet bag₁ "audio" (Val.vStr att.url.toList))
          | "video_note" =>
            some ("sendVideoNote",
              bagSet bag₁ "video_note" (Val.vStr att.url.toList))
          | "voice" =>
            some ("sendVoice", bagSet bag₁ "voice" (Val.vStr att.url.toList))
          | _ => some ("sendMessage", bagSet bag₁ "text" (Val.vStr text))
    else some ("", bag)

/-- `ExecuteAction` (part_001 lines 81-139), against an abstract transport
(`Call`) returning either an error or the extracted message id.  The event
trace records the gateway, chat-action and transport calls in order. -/
def ExecuteAction (mint : Nat → String) (saverPresent : Bool)
    (transport : String → Bag → Except Unit Int) (action : Action) :
    Option (ActionResult × List Event) :=
  if action.content.stream ≠ "tg_direct" ∧ action.content.stream ≠ "" then
    some ({ success := false, messageId := 0, error := none }, [])
  else
    let bag₀ := bagSet [] "chat_id" (Val.vInt action.user.tgId)
    let text := applyParseMode action.content
    let bag₁ := bagSetAll bag₀ action.content.spices
    match determineMethod action bag₁ text with
    | none => none
    | some (method, bag₂) =>
      match processKeyboards mint saverPresent action bag₂ with
      | none => none
      | some (bag₃, ev₁) =>
        let ev₂ :=
          match action.content.parameters.sendReaction with
          | some r => ev₁ ++ [Event.chatAction r]
          | none => ev₁
        match transport method bag₃ with
        | Except.error _ =>
          some ({ success := false, messageId := 0, error := some () },
            ev₂ ++ [Event.apiCall method])
        | Except.ok msgId =>
          some ({ success := true, messageId := msgId, error := none },
            ev₂ ++ [Event.apiCall method])

/-! ### C7: unsupported stream is a soft no-op -/

/-- C7 (confirmed): a stream value that is set (non-empty) and different
from `tg_direct` makes `ExecuteAction` return `success = false` with no
error, no transport dispatch, and no persistence-gateway call (the event
trace is empty). -/
theorem c7_unsupported_stream (mint : Nat → String) (saverPresent : Bool)
    (transport : String → Bag → Except Unit Int) (action : Action)
    (h1 : action.content.stream ≠ "tg_direct")
    (h2 : action.content.stream ≠ "") :
    ExecuteAction mint saverPresent transport action =
      some ({ success := false, messageId := 0, error := none }, []) := by
  rw [ExecuteAction, if_pos ⟨h1, h2⟩]

/-- A concrete action whose stream is the unsupported value `other`. -/
def actStreamOther : Action :=
  { activity := "message", project := "p", user := ⟨1, "u"⟩,
    content :=
      { type := "text", stream := "other", text := [], attachment := none,
        buts := [], actions := none, replyMarkup := none, columnNum := none,
        spices := [], parameters := ⟨none, none⟩ },
    token := "" }

/-- Witness for C7 at the concrete action with `stream = "other"`. -/
theorem c7_witness :
    ExecuteAction (fun _ => "") true (fun _ _ => Except.ok 0) actStreamOther =
      some ({ success := false, messageId := 0, error := none }, []) :=
  c7_unsupported_stream (fun _ => "") true (fun _ _ => Except.ok 0)
    actStreamOther (by decide) (by decide)

/-! ### C3: column-count defaulting -/

/-- C3 (corrected): the column count defaults to 3 only when `ColumnNum` is
nil; a present value — including zero or a negative number — is used as-is,
and a non-positive present value makes the keyboard build panic (`none`)
instead of laying out with 3 columns. -/
theorem c3_colnum_passthrough :
    effectiveColNum none = 3 ∧
    (∀ v : Int, effectiveColNum (some v) = v) ∧
    (∀ (mint : Nat → String) (sp : Bool) (action : Action) (bag : Bag)
        (v : Int),
      action.content.replyMarkup = none → action.content.buts ≠ [] →
      action.content.type = "inline_keyboard" →
      action.content.columnNum = some v → v ≤ 0 →
      processKeyboards mint sp action bag = none) := by
  refine ⟨rfl, fun v => rfl, ?_⟩
  intro mint sp action bag v hrm hbuts htype hcol hv
  simp [processKeyboards, hrm, hbuts, htype, hcol, effectiveColNum,
    buildInlineKeyboard, hv]

/-- A buts-driven inline keyboard whose `ColumnNum` is explicitly 0. -/
def actColumnZero : Action :=
  { activity := "message", project := "p", user := ⟨1, "u"⟩,
    content :=
      { type := "inline_keyboard", stream := "", text := [],
        attachment := none, buts := ["A"], actions := none,
        replyMarkup := none, columnNum := some 0, spices := [],
        parameters := ⟨none, none⟩ },
    token := "" }

/-- Counterexample to C3 as stated: with `ColumnNum = 0` (non-positive and
present) the layout column count is 0, not 3, and the keyboard build
panics rather than laying out 3 columns. -/
theorem c3_counterexample :
    effectiveColNum (some 0) = 0 ∧ (0 : Int) ≠ 3 ∧
      processKeyboards (fun _ => "t") true actColumnZero [] = none :=
  ⟨rfl, by decide, rfl⟩

/-- A buts-driven inline keyboard whose `ColumnNum` is explicitly -2. -/
def actColumnNeg : Action :=
  { activity := "message", project := "p", user := ⟨1, "u"⟩,
    content :=
      { type := "inline_keyboard", stream := "", text := [],
        attachment := none, buts := ["A", "B"], actions := none,
        replyMarkup := none, columnNum := some (-2), spices := [],
        parameters := ⟨none, none⟩ },
    token := "" }

/-- Witness for C3 (amended) at a negative column count. -/
theorem c3_witness :
    processKeyboards (fun _ => "t") true actColumnNeg [] = none :=
  c3_colnum_passthrough.2.2 (fun _ => "t") true actColumnNeg [] (-2)
    rfl (by decide) rfl rfl (by decide)

/-! ### C4: persistence pattern of the buts-driven inline keyboard -/

/-- C4 (corrected): on the buts-driven path (`replyMarkup` absent,
`content.type = "inline_keyboard"`, non-empty labels) the minted tokens
with their positionally-matched payloads are persisted through one
single-record `SaveCallbackData` call per button, in index order, before
`reply_markup` is placed into the parameter bag — not through one batch
call (the batch call exists only on the caller-supplied `replyMarkup`
path). -/
theorem c4_buts_saves_are_single (mint : Nat → String) (action : Action)
    (bag : Bag)
    (hrm : action.content.replyMarkup = none)
    (htype : action.content.type = "inline_keyboard")
    (hbuts : action.content.buts ≠ [])
    (hcol : 1 ≤ effectiveColNum action.content.columnNum) :
    processKeyboards mint true action bag =
      some
        (bagSet bag "reply_markup" (Val.vMap [("inline_keyboard",
           Val.vInline (chunkList
             (effectiveColNum action.content.columnNum).toNat
             (List.zipWith (fun b t => InlineKeyboardButton.mk b "" t)
               action.content.buts
               ((List.range action.content.buts.length).map mint))))]),
         (List.range action.content.buts.length).map
           (fun i => Event.saveOne (mkCallbackRecord action mint i))) ∧
    (∀ e ∈ (List.range action.content.buts.length).map
        (fun i => Event.saveOne (mkCallbackRecord action mint i)),
      Event.isBatch e = false) := by
  constructor
  · simp only [processKeyboards, hrm, hbuts, htype, buildInlineKeyboard,
      if_neg hbuts, if_pos, if_neg (by omega :
        ¬ effectiveColNum action.content.columnNum ≤ 0), if_true]
    simp
  · intro e he
    simp only [List.mem_map] at he
    obtain ⟨i, -, rfl⟩ := he
    rfl

/-- The four-button inline-keyboard action of end-to-end scenario 2
(buts `A B C D`, two columns, no reply markup). -/
def actFourButtons : Action :=
  { activity := "message", project := "p", user := ⟨1, "u"⟩,
    content :=
      { type := "inline_keyboard", stream := "", text := [],
        attachment := none, buts := ["A", "B", "C", "D"], actions := none,
        replyMarkup := none, columnNum := some 2, spices := [],
        parameters := ⟨none, none⟩ },
    token := "" }

/-- A deterministic stand-in for the clock-seeded token generator. -/
def mintFixed : Nat → String :=
  fun i => if i = 0 then "t0" else if i = 1 then "t1" else
    if i = 2 then "t2" else "t3"

/-- Counterexample to C4 as stated: for the scenario-2 action the code
makes four single-record persistence calls and zero batch calls, so the
tokens are not handed over in one batch call. -/
theorem c4_counterexample :
    (processKeyboards mintFixed true actFourButtons []).map (fun r => r.2) =
      some [Event.saveOne ⟨"p", "u", "t0", none⟩,
            Event.saveOne ⟨"p", "u", "t1", none⟩,
            Event.saveOne ⟨"p", "u", "t2", none⟩,
            Event.saveOne ⟨"p", "u", "t3", none⟩] ∧
    (processKeyboards mintFixed true actFourButtons []).map
        (fun r => r.2.countP Event.isBatch) = some 0 := by
  exact ⟨rfl, rfl⟩

/-- Witness for C4 (amended) at the scenario-2 action. -/
theorem c4_witness :
    processKeyboards mintFixed true actFourButtons [] =
      some
        (bagSet [] "reply_markup" (Val.vMap [("inline_keyboard",
           Val.vInline (chunkList
             (effectiveColNum actFourButtons.content.columnNum).toNat
             (List.zipWith (fun b t => InlineKeyboardButton.mk b "" t)
               actFourButtons.content.buts
               ((List.range actFourButtons.content.buts.length).map
                 mintFixed))))]),
         (List.range actFourButtons.content.buts.length).map
           (fun i => Event.saveOne (mkCallbackRecord actFourButtons mintFixed i))) :=
  (c4_buts_saves_are_single mintFixed actFourButtons []
    rfl rfl (by decide) (by decide)).1

/-! ### C5: which fields pass through the transcoder -/

/-- C5 (corrected): `content.text` is passed through `FormatMarkdownV2`
exactly when the spices bag maps `parse_mode` to `MarkdownV2`; the poll
explanation field, however, is transcoded unconditionally whenever the
merged parameter bag holds a string under `explanation` — regardless of
the requested parse mode. -/
theorem c5_transcode_conditions :
    (∀ content : Content,
      (bagGet content.spices "parse_mode" =
          some (Val.vStr "MarkdownV2".toList) →
        applyParseMode content = FormatMarkdownV2 content.text) ∧
      (bagGet content.spices "parse_mode" ≠
          some (Val.vStr "MarkdownV2".toList) →
        applyParseMode content = content.text)) ∧
    (∀ (action : Action) (bag : Bag) (text : List Char) (att : Attachment)
        (m : List (String × Val)) (e : List Char),
      action.content.type = "poll" →
      action.content.attachment = some att →
      att.poll = some (Val.vMap m) →
      bagGet (bagSetAll bag m) "explanation" = some (Val.vStr e) →
      determineMethod action bag text =
        some ("sendPoll",
          bagSet (bagSetAll bag m) "explanation"
            (Val.vStr (FormatMarkdownV2 e)))) := by
  constructor
  · intro content
    constructor
    · intro h
      rw [applyParseMode, h]
      simp
    · intro h
      rw [applyParseMode]
      cases hv : bagGet content.spices "parse_mode" with
      | none => rfl
      | some v =>
        cases v with
        | vStr s =>
          show (if s = "MarkdownV2".toList then FormatMarkdownV2 content.text
            else content.text) = content.text
          rw [if_neg]
          intro hs
          exact h (by rw [hv, hs])
        | vNull => rfl
        | vInt n => rfl
        | vBool b => rfl
        | vMap mm => rfl
        | vArr a => rfl
        | vInline kb => rfl
        | vRows r => rfl
  · intro action bag text att m e htype hatt hpoll hexp
    simp [determineMethod, htype, hatt, hpoll, hexp]

/-- The scenario action for C5: a poll with an `explanation` containing a
reserved character, and no parse mode requested in spices. -/
def actPollNoParseMode : Action :=
  { activity := "message", project := "p", user := ⟨1, "u"⟩,
    content :=
      { type := "poll", stream := "", text := [],
        attachment := some
          { type := "", url := "", sticker := "", dice := "",
            contact := none,
            poll := some (Val.vMap
              [("question", Val.vStr ['q']),
               ("explanation", Val.vStr ['h', 'i', '!'])]),
            venue := none, gameShortName := "" },
        buts := [], actions := none, replyMarkup := none, columnNum := none,
        spices := [], parameters := ⟨none, none⟩ },
    token := "" }

/-- Counterexample to C5 as stated: with no parse mode requested the claim
says the explanation is left untranscoded, but the code escapes it
(`hi!` becomes `hi\!`). -/
theorem c5_counterexample :
    bagGet actPollNoParseMode.content.spices "parse_mode" = none ∧
    (determineMethod actPollNoParseMode []
        (applyParseMode actPollNoParseMode.content)).bind
        (fun r => bagGet r.2 "explanation") =
      some (Val.vStr ['h', 'i', '\\', '!']) ∧
    Val.vStr ['h', 'i', '\\', '!'] ≠ Val.vStr ['h', 'i', '!'] := by
  refine ⟨rfl, rfl, ?_⟩
  intro h
  injection h with h'
  exact absurd h' (by decide)

/-- A text content requesting the V2 dialect in spices. -/
def contentTextV2 : Content :=
  { type := "text", stream := "", text := ['h', 'i', '!'], attachment := none,
    buts := [], actions := none, replyMarkup := none, columnNum := none,
    spices := [("parse_mode", Val.vStr "MarkdownV2".toList)],
    parameters := ⟨none, none⟩ }

/-- Witness for C5 (amended): the V2 spice transcodes the text, and the
poll explanation is transcoded with no parse mode present. -/
theorem c5_witness :
    applyParseMode contentTextV2 = FormatMarkdownV2 contentTextV2.text ∧
    determineMethod actPollNoParseMode [] [] =
      some ("sendPoll",
        bagSet (bagSetAll []
            [("question", Val.vStr ['q']),
             ("explanation", Val.vStr ['h', 'i', '!'])])
          "explanation" (Val.vStr (FormatMarkdownV2 ['h', 'i', '!']))) :=
  ⟨(c5_transcode_conditions.1 contentTextV2).1 rfl,
   c5_transcode_conditions.2 actPollNoParseMode [] [] _ _ ['h', 'i', '!']
     rfl rfl rfl rfl⟩

/-! ### C10: nil-attachment dereference in the dispatcher -/

/-- C10 (confirmed): for content types `sticker`, `dice` and `game` the
dispatcher dereferences `content.Attachment` unconditionally, so it
panics (`none`) exactly when the attachment is nil and succeeds otherwise —
a nil attachment never yields an error result. -/
theorem c10_nil_attachment_panics (action : Action) (bag : Bag)
    (text : List Char)
    (h : action.content.type = "sticker" ∨ action.content.type = "dice" ∨
      action.content.type = "game") :
    (determineMethod action bag text = none ↔
      action.content.attachment = none) := by
  rcases h with h | h | h <;>
    cases hatt : action.content.attachment <;>
      simp [determineMethod, h, hatt]

/-- A sticker action whose attachment is nil. -/
def actStickerNil : Action :=
  { activity := "message", project := "p", user := ⟨1, "u"⟩,
    content :=
      { type := "sticker", stream := "", text := [], attachment := none,
        buts := [], actions := none, replyMarkup := none, columnNum := none,
        spices := [], parameters := ⟨none, none⟩ },
    token := "" }

/-- Witness for C10: the nil-attachment sticker action panics in the
dispatcher. -/
theorem c10_witness :
    determineMethod actStickerNil [] [] = none ∧
      actStickerNil.content.attachment = none :=
  ⟨(c10_nil_attachment_panics actStickerNil [] [] (Or.inl rfl)).mpr rfl, rfl⟩

end Tg
